import Mathlib

/-!
Verification development for the sequence-stretch demo (src/sltm/index.js).

The source synthesizes random binary sequences, labels each one according to
whether it contains a run ("stretch") of identical digits of length at least a
threshold, packs the sequences into one-hot buffers, and wires a training
callback with a cancellation flag.  The definitions below are a shallow
embedding of that code: JavaScript numbers that can be negative are `Int`,
non-negative counters are `Nat`, the stream of `Math.random() > 0.5` outcomes
is a function `Nat → Bool`, and the per-cell contents of the zero-initialized
`tf.buffer` after its single write are spelled out explicitly.
-/

/-- Source line 2: `const stretchLengthThreshold = 4;`. -/
def stretchLengthThreshold : Nat := 4

/-- One random draw turned into a sequence item, embedding line 21:
`const item = Math.random() > 0.5 ? 1 : 0;`.  The `Bool` is the outcome of the
comparison `Math.random() > 0.5`. -/
def drawItem (d : Bool) : Int := if d then 1 else 0

/-- The loop body of `generateSequenceAndLabel` (lines 20-32), run over the
remaining items.  State threads the mutable variables `currentItem`,
`stretchLength` and `label`; each iteration either extends the current stretch
(`stretchLength++`) or starts a fresh one (`currentItem = item;
stretchLength = 1`), and then sets `label = 1` whenever
`stretchLength >= stretchLengthThreshold`. -/
def genScan : List Int → Int → Nat → Nat → Int × Nat × Nat
  | [], currentItem, stretchLength, label => (currentItem, stretchLength, label)
  | item :: rest, currentItem, stretchLength, label =>
    if currentItem = item then
      genScan rest currentItem (stretchLength + 1)
        (if stretchLengthThreshold ≤ stretchLength + 1 then 1 else label)
    else
      genScan rest item 1 (if stretchLengthThreshold ≤ 1 then 1 else label)

/-- Embedding of `generateSequenceAndLabel(len)` (lines 15-34).  The loop runs
`len` times (`for (let i = 0; i < len; ++i)`, hence `len.toNat` iterations for
an integer argument), pushing one item per draw, with the scan state starting
at `currentItem = -1`, `stretchLength = 0`, `label = 0`. -/
def generateSequenceAndLabel (len : Int) (rand : Nat → Bool) : List Int × Nat :=
  let sequence := (List.range len.toNat).map fun i => drawItem (rand i)
  (sequence, (genScan sequence (-1) 0 0).2.2)

/-- Contents of one one-hot cell row of the sequences buffer: the buffer is
zero-initialized by `tf.buffer` and receives the single write
`sequencesBuffer.set(1, i, j, sequence[j])` (line 55), so channel `c` of
position `j` holds `1` exactly when `c` equals the digit, and `0` otherwise. -/
def encodeItem (item : Int) : List Nat :=
  [if item = 0 then 1 else 0, if item = 1 then 1 else 0]

/-- One-hot encoding of a whole sequence (the inner `j` loop of lines 54-56). -/
def encodeSeq (s : List Int) : List (List Nat) := s.map encodeItem

/-- Embedding of `generateDataset(numExamples, sequenceLength)` (lines 49-60).
The `i` loop runs `numExamples` times (zero times for a non-positive count);
each iteration draws one fresh sequence/label pair, one-hot encodes the
sequence, and stores the label via `labelsBuffer.set(label, i, 0)` as the
single entry of row `i`. -/
def generateDataset (numExamples sequenceLen : Int) (rand : Nat → Nat → Bool) :
    List (List (List Nat)) × List (List Nat) :=
  ((List.range numExamples.toNat).map fun i =>
      encodeSeq (generateSequenceAndLabel sequenceLen (rand i)).1,
   (List.range numExamples.toNat).map fun i =>
      [(generateSequenceAndLabel sequenceLen (rand i)).2])

/-- Embedding of the `tf.buffer(shape)` allocation performed on lines 50-51:
the external library allocates a zero-filled typed array for the shape.  A
negative dimension makes the allocation fail (`RangeError: Invalid typed array
length` from the negative typed-array length; newer library versions assert
non-negative dimensions first); a shape of non-negative dimensions always
succeeds, including size 0. -/
def tfBufferAlloc (shape : List Int) : Except String Unit :=
  if ∀ d ∈ shape, 0 ≤ d then Except.ok ()
  else Except.error "RangeError: Invalid typed array length"

/-- Result of `generateDataset` with its failure modes made explicit: the
source body contains no input validation and no throw statement of its own,
so the only failure path is the buffer allocation `tf.buffer([numExamples,
sequenceLength, 2])` on line 50 followed by `tf.buffer([numExamples, 1])` on
line 51; once both allocations succeed, the loop runs and a result is
returned. -/
def generateDatasetE (numExamples sequenceLen : Int) (rand : Nat → Nat → Bool) :
    Except String (List (List (List Nat)) × List (List Nat)) :=
  match tfBufferAlloc [numExamples, sequenceLen, 2] with
  | Except.error e => Except.error e
  | Except.ok _ =>
    match tfBufferAlloc [numExamples, 1] with
    | Except.error e => Except.error e
    | Except.ok _ => Except.ok (generateDataset numExamples sequenceLen rand)

/-- Embedding of `getInput()` (lines 69-85): the three hardcoded example
sequences, one-hot encoded by the same zero-init-plus-single-write buffer
pattern as `generateDataset`. -/
def getInput : List (List (List Nat)) :=
  ([[0, 1, 0, 1, 0, 1, 0, 0, 1, 0],
    [0, 1, 1, 1, 1, 0, 1, 0, 0, 1],
    [0, 0, 0, 0, 0, 0, 1, 0, 0, 1]] : List (List Int)).map encodeSeq

/-- Kind of a JavaScript binding: declared with `const` or with `let`/`var`. -/
inductive JsBindingKind where
  | constBinding
  | letBinding

/-- Source line 3 declares the cancellation flag with `const`:
`const cancelTraining = false;`. -/
def cancelTrainingKind : JsBindingKind := JsBindingKind.constBinding

/-- JavaScript assignment semantics for a binding: assigning to a `const`
binding throws `TypeError: Assignment to constant variable.`; assigning to a
`let` binding succeeds and yields the new flag value. -/
def jsAssign (k : JsBindingKind) (v : Bool) : Except String Bool :=
  match k with
  | JsBindingKind.constBinding =>
      Except.error "TypeError: Assignment to constant variable."
  | JsBindingKind.letBinding => Except.ok v

/-- Embedding of `cancel()` (lines 87-89): it executes the single statement
`cancelTraining = true;` against the binding declared on line 3. -/
def cancel : Except String Bool := jsAssign cancelTrainingKind true

/-- Embedding of the `onEpochEnd` callback decision (lines 126-128): given the
current `model.stopTraining` value, the `cancelTraining` flag and
`logs.val_acc`, the callback sets `model.stopTraining = true` exactly when
`cancelTraining || logs.val_acc > 0.9`, and otherwise leaves it unchanged. -/
def onEpochEnd (stopFlag cancelFlag : Bool) (valAcc : ℚ) : Bool :=
  if cancelFlag = true ∨ (0.9 : ℚ) < valAcc then true else stopFlag

/-- Embedding of `Math.round` on an exact rational: round half away from zero
for non-negative arguments, i.e. `⌊x + 1/2⌋`. -/
def jsRound (x : ℚ) : Int := Int.floor (x + 1 / 2)

/-- Line 139: `let results = output.map(_ => Math.round(_));`. -/
def roundPredictions (preds : List ℚ) : List Int := preds.map jsRound

/-- Embedding of `Array.prototype.toString`, which joins the elements' decimal
representations with `","` — used by `results.toString()` on line 140. -/
def joinComma : List String → String
  | [] => ""
  | [s] => s
  | s :: t :: rest => s ++ "," ++ joinComma (t :: rest)

/-- The final string written into the results text box (line 140). -/
def resultsDisplay (preds : List ℚ) : String :=
  joinComma ((roundPredictions preds).map toString)

/-- Length of the initial segment of `l` whose elements all equal `v`
(specification-side helper for run lengths). -/
def countEq (v : Int) : List Int → Nat
  | [] => 0
  | a :: t => if a = v then countEq v t + 1 else 0

/-- Maximum, over all start positions of `l`, of the length of the constant
block starting there; this equals the maximum run length of `l`
(specification-side helper). -/
def maxRunFrom : List Int → Nat
  | [] => 0
  | a :: t => max (countEq a t + 1) (maxRunFrom t)

/-- Modelled from the spec: "the sequence contains a contiguous run of one
repeated digit of length ≥ a configured threshold T" — there is a start
position `i` and a value `v` such that the `T` items from position `i` on are
all equal to `v`. -/
def hasStretch (T : Nat) (l : List Int) : Prop :=
  ∃ i < l.length, ∃ v ∈ l, (l.drop i).take T = List.replicate T v

lemma countEq_eq_zero (v : Int) (l : List Int) (h : ∀ x ∈ l, x ≠ v) :
    countEq v l = 0 := by
  cases l with
  | nil => rfl
  | cons a t =>
    simp only [countEq]
    rw [if_neg (h a (List.mem_cons_self a t))]

lemma le_countEq_take (v : Int) : ∀ (k : Nat) (l : List Int),
    k ≤ countEq v l → l.take k = List.replicate k v := by
  intro k
  induction k with
  | zero => intro l _; rfl
  | succ n ihn =>
    intro l hk
    cases l with
    | nil =>
      simp only [countEq] at hk
      exact absurd hk (by omega)
    | cons a t =>
      simp only [countEq] at hk
      by_cases hav : a = v
      · rw [if_pos hav] at hk
        subst hav
        rw [List.take_succ_cons, List.replicate_succ]
        exact congrArg (List.cons a) (ihn t (by omega))
      · rw [if_neg hav] at hk
        exact absurd hk (by omega)

lemma take_eq_replicate_le_countEq (v : Int) : ∀ (k : Nat) (l : List Int),
    l.take k = List.replicate k v → k ≤ countEq v l := by
  intro k
  induction k with
  | zero => intro l _; exact Nat.zero_le _
  | succ n ihn =>
    intro l hl
    cases l with
    | nil =>
      rw [List.take_nil] at hl
      have hlen := congrArg List.length hl
      simp only [List.length_nil, List.length_replicate] at hlen
      omega
    | cons a t =>
      rw [List.take_succ_cons, List.replicate_succ, List.cons.injEq] at hl
      obtain ⟨rfl, h2⟩ := hl
      have h3 := ihn t h2
      simp [countEq]
      omega

lemma le_maxRunFrom_hasStretch (T : Nat) (hT : 1 ≤ T) :
    ∀ l : List Int, T ≤ maxRunFrom l → hasStretch T l := by
  intro l
  induction l with
  | nil =>
    intro h
    simp only [maxRunFrom] at h
    omega
  | cons a t ih =>
    intro h
    simp only [maxRunFrom] at h
    rcases le_max_iff.mp h with h1 | h1
    · obtain ⟨m, rfl⟩ : ∃ m, T = m + 1 := ⟨T - 1, by omega⟩
      refine ⟨0, by simp, a, List.mem_cons_self a t, ?_⟩
      rw [List.drop_zero, List.take_succ_cons, List.replicate_succ]
      exact congrArg (List.cons a) (le_countEq_take a m t (by omega))
    · obtain ⟨i, hi, v, hv, heq⟩ := ih h1
      exact ⟨i + 1, by simpa using Nat.succ_lt_succ hi, v,
        List.mem_cons_of_mem a hv, by simpa [List.drop_succ_cons] using heq⟩

lemma hasStretch_le_maxRunFrom (T : Nat) :
    ∀ (l : List Int) (i : Nat) (v : Int),
      (l.drop i).take T = List.replicate T v → T ≤ maxRunFrom l := by
  intro l
  induction l with
  | nil =>
    intro i v hiv
    rw [List.drop_nil, List.take_nil] at hiv
    have hlen := congrArg List.length hiv
    simp only [List.length_nil, List.length_replicate] at hlen
    simp only [maxRunFrom]
    omega
  | cons a t ih =>
    intro i v hiv
    cases i with
    | zero =>
      rw [List.drop_zero] at hiv
      cases T with
      | zero => exact Nat.zero_le _
      | succ m =>
        rw [List.take_succ_cons, List.replicate_succ, List.cons.injEq] at hiv
        obtain ⟨rfl, h2⟩ := hiv
        have h3 := take_eq_replicate_le_countEq a m t h2
        simp only [maxRunFrom]
        exact le_max_of_le_left (by omega)
    | succ j =>
      rw [List.drop_succ_cons] at hiv
      simp only [maxRunFrom]
      exact le_max_of_le_right (ih j v hiv)

lemma genScan_label_iff : ∀ (l : List Int) (cur : Int) (len label : Nat),
    (stretchLengthThreshold ≤ len → label = 1) →
    ((genScan l cur len label).2.2 = 1 ↔
      label = 1 ∨ stretchLengthThreshold ≤ len + countEq cur l ∨
        stretchLengthThreshold ≤ maxRunFrom l) := by
  intro l
  induction l with
  | nil =>
    intro cur len label h
    simp only [genScan, countEq, maxRunFrom, Nat.add_zero]
    constructor
    · exact fun h1 => Or.inl h1
    · rintro (h1 | h2 | h3)
      · exact h1
      · exact h h2
      · exact absurd h3 (by decide)
  | cons a t ih =>
    intro cur len label h
    by_cases hca : cur = a
    · subst hca
      rw [show genScan (cur :: t) cur len label =
            genScan t cur (len + 1)
              (if stretchLengthThreshold ≤ len + 1 then 1 else label)
          from by rw [genScan, if_pos rfl]]
      rw [ih cur (len + 1) _ (fun hh => if_pos hh)]
      rw [show countEq cur (cur :: t) = countEq cur t + 1
          from by rw [countEq, if_pos rfl]]
      simp only [maxRunFrom]
      constructor
      · rintro (h1 | h2 | h3)
        · by_cases hT : stretchLengthThreshold ≤ len + 1
          · exact Or.inr (Or.inl (by omega))
          · rw [if_neg hT] at h1
            exact Or.inl h1
        · exact Or.inr (Or.inl (by omega))
        · exact Or.inr (Or.inr (le_max_of_le_right h3))
      · rintro (h1 | h2 | h3)
        · by_cases hT : stretchLengthThreshold ≤ len + 1
          · exact Or.inl (if_pos hT)
          · rw [if_neg hT]
            exact Or.inl h1
        · exact Or.inr (Or.inl (by omega))
        · rcases le_max_iff.mp h3 with h4 | h4
          · exact Or.inr (Or.inl (by omega))
          · exact Or.inr (Or.inr h4)
    · rw [show genScan (a :: t) cur len label =
            genScan t a 1 (if stretchLengthThreshold ≤ 1 then 1 else label)
          from by rw [genScan, if_neg hca]]
      rw [ih a 1 _ (fun hh => if_pos hh)]
      rw [show countEq cur (a :: t) = 0
          from by rw [countEq, if_neg (fun hh => hca hh.symm)]]
      simp only [maxRunFrom, Nat.add_zero]
      constructor
      · rintro (h1 | h2 | h3)
        · by_cases hT : stretchLengthThreshold ≤ 1
          · exact Or.inr (Or.inr (le_max_of_le_left (by omega)))
          · rw [if_neg hT] at h1
            exact Or.inl h1
        · exact Or.inr (Or.inr (le_max_of_le_left (by omega)))
        · exact Or.inr (Or.inr (le_max_of_le_right h3))
      · rintro (h1 | h2 | h3)
        · by_cases hT : stretchLengthThreshold ≤ 1
          · exact Or.inl (if_pos hT)
          · rw [if_neg hT]
            exact Or.inl h1
        · exact Or.inl (h h2)
        · rcases le_max_iff.mp h3 with h4 | h4
          · exact Or.inr (Or.inl (by omega))
          · exact Or.inr (Or.inr h4)

lemma genScan_label_eq_one_or : ∀ (l : List Int) (cur : Int) (len label : Nat),
    (genScan l cur len label).2.2 = 1 ∨ (genScan l cur len label).2.2 = label := by
  intro l
  induction l with
  | nil => intro cur len label; exact Or.inr rfl
  | cons a t ih =>
    intro cur len label
    by_cases hca : cur = a
    · rw [show genScan (a :: t) cur len label =
            genScan t cur (len + 1)
              (if stretchLengthThreshold ≤ len + 1 then 1 else label)
          from by rw [genScan, if_pos hca]]
      rcases ih cur (len + 1)
          (if stretchLengthThreshold ≤ len + 1 then 1 else label) with h | h
      · exact Or.inl h
      · rw [h]
        by_cases hT : stretchLengthThreshold ≤ len + 1
        · rw [if_pos hT]; exact Or.inl rfl
        · rw [if_neg hT]; exact Or.inr rfl
    · rw [show genScan (a :: t) cur len label =
            genScan t a 1 (if stretchLengthThreshold ≤ 1 then 1 else label)
          from by rw [genScan, if_neg hca]]
      rcases ih a 1 (if stretchLengthThreshold ≤ 1 then 1 else label) with h | h
      · exact Or.inl h
      · rw [h]
        by_cases hT : stretchLengthThreshold ≤ 1
        · rw [if_pos hT]; exact Or.inl rfl
        · rw [if_neg hT]; exact Or.inr rfl

lemma genScan_append : ∀ (p q : List Int) (cur : Int) (len label : Nat),
    genScan (p ++ q) cur len label =
      genScan q (genScan p cur len label).1 (genScan p cur len label).2.1
        (genScan p cur len label).2.2 := by
  intro p
  induction p with
  | nil => intro q cur len label; rfl
  | cons a t ih =>
    intro q cur len label
    rw [show (a :: t) ++ q = a :: (t ++ q) from rfl]
    by_cases hca : cur = a
    · rw [show genScan (a :: (t ++ q)) cur len label =
            genScan (t ++ q) cur (len + 1)
              (if stretchLengthThreshold ≤ len + 1 then 1 else label)
          from by rw [genScan, if_pos hca]]
      rw [show genScan (a :: t) cur len label =
            genScan t cur (len + 1)
              (if stretchLengthThreshold ≤ len + 1 then 1 else label)
          from by rw [genScan, if_pos hca]]
      exact ih q cur (len + 1) _
    · rw [show genScan (a :: (t ++ q)) cur len label =
            genScan (t ++ q) a 1
              (if stretchLengthThreshold ≤ 1 then 1 else label)
          from by rw [genScan, if_neg hca]]
      rw [show genScan (a :: t) cur len label =
            genScan t a 1 (if stretchLengthThreshold ≤ 1 then 1 else label)
          from by rw [genScan, if_neg hca]]
      exact ih q a 1 _

lemma genScan_label_one : ∀ (q : List Int) (cur : Int) (len : Nat),
    (genScan q cur len 1).2.2 = 1 := by
  intro q
  induction q with
  | nil => intro cur len; rfl
  | cons a t ih =>
    intro cur len
    by_cases hca : cur = a
    · rw [show genScan (a :: t) cur len 1 =
            genScan t cur (len + 1)
              (if stretchLengthThreshold ≤ len + 1 then 1 else 1)
          from by rw [genScan, if_pos hca]]
      rw [ite_self]
      exact ih cur (len + 1)
    · rw [show genScan (a :: t) cur len 1 =
            genScan t a 1 (if stretchLengthThreshold ≤ 1 then 1 else 1)
          from by rw [genScan, if_neg hca]]
      rw [ite_self]
      exact ih a 1

lemma generated_digits_binary (len : Int) (rand : Nat → Bool) :
    ∀ d ∈ (generateSequenceAndLabel len rand).1, d = 0 ∨ d = 1 := by
  intro d hd
  simp only [generateSequenceAndLabel, List.mem_map] at hd
  obtain ⟨i, _, rfl⟩ := hd
  cases h : rand i <;> decide

lemma generated_ne_neg_one (len : Int) (rand : Nat → Bool) :
    ∀ x ∈ (generateSequenceAndLabel len rand).1, x ≠ (-1 : Int) := by
  intro x hx
  simp only [generateSequenceAndLabel, List.mem_map] at hx
  obtain ⟨i, _, rfl⟩ := hx
  cases h : rand i <;> decide

lemma label_eq_one_iff (items : List Int) (hbin : ∀ x ∈ items, x ≠ (-1 : Int)) :
    (genScan items (-1) 0 0).2.2 = 1 ↔ stretchLengthThreshold ≤ maxRunFrom items := by
  rw [genScan_label_iff items (-1) 0 0 (fun hh => absurd hh (by decide))]
  rw [countEq_eq_zero (-1) items hbin]
  constructor
  · rintro (h1 | h1 | h1)
    · exact absurd h1 (by decide)
    · exact absurd h1 (by decide)
    · exact h1
  · intro h1
    exact Or.inr (Or.inr h1)

lemma encodeItem_oneHot (d : Int) (hd : d = 0 ∨ d = 1) :
    encodeItem d = [1, 0] ∨ encodeItem d = [0, 1] := by
  rcases hd with rfl | rfl
  · exact Or.inl rfl
  · exact Or.inr rfl

lemma jsRound_binary (p : ℚ) (h0 : 0 ≤ p) (h1 : p ≤ 1) :
    jsRound p = 0 ∨ jsRound p = 1 := by
  have hlow : (0 : Int) ≤ Int.floor (p + 1 / 2) := by
    apply Int.le_floor.mpr
    push_cast
    linarith
  have hhigh : Int.floor (p + 1 / 2) < 2 := by
    apply Int.floor_lt.mpr
    push_cast
    linarith
  unfold jsRound
  omega

lemma string_append_assoc (s t u : String) : s ++ t ++ u = s ++ (t ++ u) := by
  rcases s with ⟨ls⟩
  rcases t with ⟨lt⟩
  rcases u with ⟨lu⟩
  show String.mk (ls ++ lt ++ lu) = String.mk (ls ++ (lt ++ lu))
  rw [List.append_assoc]

/-- C1: For every length and every sequence of random draws,
`generateSequenceAndLabel` returns a sequence of that many binary (0/1) digits
together with a label that is 1 if and only if the sequence contains a
contiguous run of one repeated digit of length at least the configured
threshold `stretchLengthThreshold` (4), and 0 otherwise. -/
theorem generateSequenceAndLabel_spec (len : Int) (rand : Nat → Bool) :
    (generateSequenceAndLabel len rand).1.length = len.toNat ∧
    (∀ d ∈ (generateSequenceAndLabel len rand).1, d = 0 ∨ d = 1) ∧
    ((generateSequenceAndLabel len rand).2 = 0 ∨
      (generateSequenceAndLabel len rand).2 = 1) ∧
    ((generateSequenceAndLabel len rand).2 = 1 ↔
      hasStretch stretchLengthThreshold (generateSequenceAndLabel len rand).1) := by
  refine ⟨?_, generated_digits_binary len rand, ?_, ?_⟩
  · simp [generateSequenceAndLabel]
  · rcases genScan_label_eq_one_or (generateSequenceAndLabel len rand).1
        (-1) 0 0 with h | h
    · exact Or.inr h
    · exact Or.inl h
  · constructor
    · intro h1
      exact le_maxRunFrom_hasStretch stretchLengthThreshold (by decide)
        (generateSequenceAndLabel len rand).1
        ((label_eq_one_iff (generateSequenceAndLabel len rand).1
          (generated_ne_neg_one len rand)).mp h1)
    · intro h1
      obtain ⟨i, hi, v, hv, heq⟩ := h1
      exact (label_eq_one_iff (generateSequenceAndLabel len rand).1
        (generated_ne_neg_one len rand)).mpr
        (hasStretch_le_maxRunFrom stretchLengthThreshold
          (generateSequenceAndLabel len rand).1 i v heq)

/-- C6: During the scan, once the label has been set to 1 after any prefix of
the items it stays 1 through any continuation of the scan (it never resets),
and the resulting label equals the indicator of "maximum run length is at
least the threshold". -/
theorem genScan_label_persists_and_maxRun :
    (∀ (p q : List Int) (cur : Int) (len label : Nat),
        (genScan p cur len label).2.2 = 1 →
        (genScan (p ++ q) cur len label).2.2 = 1) ∧
    (∀ (len : Int) (rand : Nat → Bool),
        (generateSequenceAndLabel len rand).2 =
          if stretchLengthThreshold ≤
              maxRunFrom (generateSequenceAndLabel len rand).1
          then 1 else 0) := by
  constructor
  · intro p q cur len label hp
    rw [genScan_append p q cur len label, hp]
    exact genScan_label_one q _ _
  · intro len rand
    have hbin := generated_ne_neg_one len rand
    by_cases hT : stretchLengthThreshold ≤
        maxRunFrom (generateSequenceAndLabel len rand).1
    · rw [if_pos hT]
      exact (label_eq_one_iff (generateSequenceAndLabel len rand).1 hbin).mpr hT
    · rw [if_neg hT]
      rcases genScan_label_eq_one_or (generateSequenceAndLabel len rand).1
          (-1) 0 0 with h1 | h1
      · exact absurd
          ((label_eq_one_iff (generateSequenceAndLabel len rand).1 hbin).mp h1) hT
      · exact h1

/-- Witness for C6: after the prefix `[1, 1, 1, 1]` the label is 1, and it is
still 1 after scanning the extra suffix `[0, 0]`. -/
theorem genScan_label_persists_witness :
    (genScan ([1, 1, 1, 1] ++ [0, 0]) (-1) 0 0).2.2 = 1 :=
  genScan_label_persists_and_maxRun.1 [1, 1, 1, 1] [0, 0] (-1) 0 0 (by decide)

/-- C7: For every sequence of random draws, a sequence of length 1 is always
labeled 0, because the run length can never reach the threshold 4. -/
theorem singleItem_label_zero (rand : Nat → Bool) :
    (generateSequenceAndLabel 1 rand).2 = 0 := by
  have h : ∀ x : Int, (genScan [x] (-1) 0 0).2.2 = 0 := by
    intro x
    by_cases hx : (-1 : Int) = x
    · rw [genScan, if_pos hx, genScan]
      show (if stretchLengthThreshold ≤ 0 + 1 then 1 else 0) = 0
      rw [if_neg (by decide)]
    · rw [genScan, if_neg hx, genScan]
      show (if stretchLengthThreshold ≤ 1 then 1 else 0) = 0
      rw [if_neg (by decide)]
  show (genScan ((List.range (1 : Int).toNat).map fun i => drawItem (rand i))
      (-1) 0 0).2.2 = 0
  rw [show (1 : Int).toNat = 1 from rfl, show List.range 1 = [0] from rfl,
    List.map_cons, List.map_nil]
  exact h (drawItem (rand 0))

/-- C2 counterexample: called with the non-positive example count 0, the
dataset builder does not fail with an input-validation error; it returns a
successful (empty) result, because the source contains no validation and the
generation loop simply runs zero times. -/
theorem generateDataset_no_validation_cex :
    generateDatasetE 0 10 (fun _ _ => false) = Except.ok ([], []) := rfl

/-- C2 (amended): the dataset builder performs no input validation of its
own.  For the non-positive example count 0 it does not fail at all: the
generation loop executes zero times and a successful empty dataset is
returned.  For a negative example count the call does fail fast, but the
error is the external library's `RangeError` raised by the buffer allocation
on line 50 (a negative typed-array length), not an input-validation error in
this code. -/
theorem generateDataset_nonpos_behaviour (N : Int) (rand : Nat → Nat → Bool)
    (hN : 0 < N) :
    (generateDatasetE 0 N rand = Except.ok ([], [])) ∧
    (∀ M : Int, M < 0 →
      generateDatasetE M N rand =
        Except.error "RangeError: Invalid typed array length") := by
  constructor
  · have hall1 : ∀ d ∈ [(0 : Int), N, 2], (0 : Int) ≤ d := by
      intro d hd
      simp only [List.mem_cons, List.mem_singleton, List.not_mem_nil,
        or_false] at hd
      rcases hd with rfl | rfl | rfl
      · exact le_refl 0
      · exact hN.le
      · decide
    have h1 : tfBufferAlloc [0, N, 2] = Except.ok () := by
      rw [tfBufferAlloc, if_pos hall1]
    have h2 : tfBufferAlloc [0, 1] = Except.ok () := by
      rw [tfBufferAlloc, if_pos (by decide)]
    have h3 : generateDataset 0 N rand = ([], []) := by
      simp [generateDataset, show (0 : Int).toNat = 0 from rfl]
    simp only [generateDatasetE]
    rw [h1, h2]
    show Except.ok (generateDataset 0 N rand) = Except.ok ([], [])
    rw [h3]
  · intro M hM
    have hnot : ¬ ∀ d ∈ [M, N, 2], (0 : Int) ≤ d := by
      intro hall
      exact absurd (hall M (by simp)) (by omega)
    have h1 : tfBufferAlloc [M, N, 2] =
        Except.error "RangeError: Invalid typed array length" := by
      rw [tfBufferAlloc, if_neg hnot]
    simp only [generateDatasetE]
    rw [h1]

/-- Witness for the amended C2: at count 0 the builder succeeds with an empty
dataset, and at the negative count -3 it fails with the allocation error. -/
theorem generateDataset_nonpos_behaviour_witness :
    (generateDatasetE 0 10 (fun _ _ => true) = Except.ok ([], [])) ∧
    (generateDatasetE (-3) 10 (fun _ _ => true) =
      Except.error "RangeError: Invalid typed array length") :=
  ⟨(generateDataset_nonpos_behaviour 10 (fun _ _ => true) (by decide)).1,
   (generateDataset_nonpos_behaviour 10 (fun _ _ => true) (by decide)).2
     (-3) (by decide)⟩

/-- C3: invoking the cancellation action does not set the flag and terminate
training gracefully — because line 3 declares `cancelTraining` with `const`,
the assignment `cancelTraining = true` inside `cancel()` throws a `TypeError`,
so the cancellation path raises an exception and the flag is never set. -/
theorem cancel_raises_type_error :
    cancel = Except.error "TypeError: Assignment to constant variable." := rfl

/-- C4: for every positive example count `M` and sequence length `N`, the
dataset builder returns exactly `M` examples: `M` one-hot-encoded input rows,
each of `N` positions with each position a one-hot pair (`[1,0]` or `[0,1]`),
and `M` label rows of length 1 whose entry is 0 or 1; every digit of every
generated sequence is 0 or 1. -/
theorem generateDataset_shape (M N : Int) (rand : Nat → Nat → Bool)
    (hM : 0 < M) (hN : 0 < N) :
    (((generateDataset M N rand).1.length : Int) = M) ∧
    (((generateDataset M N rand).2.length : Int) = M) ∧
    (∀ row ∈ (generateDataset M N rand).1,
        ((row.length : Int) = N ∧
          ∀ cell ∈ row, cell = [1, 0] ∨ cell = [0, 1])) ∧
    (∀ lr ∈ (generateDataset M N rand).2,
        lr.length = 1 ∧ ∀ x ∈ lr, x = 0 ∨ x = 1) ∧
    (∀ i, ∀ d ∈ (generateSequenceAndLabel N (rand i)).1, d = 0 ∨ d = 1) := by
  have hMt : (M.toNat : Int) = M := Int.toNat_of_nonneg hM.le
  have hNt : (N.toNat : Int) = N := Int.toNat_of_nonneg hN.le
  refine ⟨?_, ?_, ?_, ?_, fun i => generated_digits_binary N (rand i)⟩
  · simp [generateDataset, hMt]
  · simp [generateDataset, hMt]
  · intro row hrow
    simp only [generateDataset, List.mem_map] at hrow
    obtain ⟨i, _, rfl⟩ := hrow
    constructor
    · simp [encodeSeq, generateSequenceAndLabel, hNt]
    · intro cell hcell
      simp only [encodeSeq, List.mem_map] at hcell
      obtain ⟨d, hd, rfl⟩ := hcell
      exact encodeItem_oneHot d (generated_digits_binary N (rand i) d hd)
  · intro lr hlr
    simp only [generateDataset, List.mem_map] at hlr
    obtain ⟨i, _, rfl⟩ := hlr
    refine ⟨rfl, ?_⟩
    intro x hx
    rcases List.mem_singleton.mp hx with rfl
    rcases genScan_label_eq_one_or (generateSequenceAndLabel N (rand i)).1
        (-1) 0 0 with h1 | h1
    · exact Or.inr h1
    · exact Or.inl h1

/-- Witness for C4 at M = 1, N = 2 with the all-ones draw stream. -/
theorem generateDataset_shape_witness :
    (((generateDataset 1 2 (fun _ _ => true)).1.length : Int) = 1) ∧
    (((generateDataset 1 2 (fun _ _ => true)).2.length : Int) = 1) ∧
    (∀ row ∈ (generateDataset 1 2 (fun _ _ => true)).1,
        ((row.length : Int) = 2 ∧
          ∀ cell ∈ row, cell = [1, 0] ∨ cell = [0, 1])) ∧
    (∀ lr ∈ (generateDataset 1 2 (fun _ _ => true)).2,
        lr.length = 1 ∧ ∀ x ∈ lr, x = 0 ∨ x = 1) ∧
    (∀ i : Nat, ∀ d ∈ (generateSequenceAndLabel 2 (fun _ => true)).1,
        d = 0 ∨ d = 1) :=
  generateDataset_shape 1 2 (fun _ _ => true) (by decide) (by decide)

/-- Decoding one one-hot cell: the channel index holding the 1 (as produced by
`List.indexOf`), read back as a digit. -/
def decodeCell (cell : List Nat) : Int := (cell.indexOf 1 : Int)

/-- Decoding a one-hot encoded sequence position by position. -/
def decodeSeq (e : List (List Nat)) : List Int := e.map decodeCell

lemma decode_encode : ∀ s : List Int, (∀ d ∈ s, d = 0 ∨ d = 1) →
    decodeSeq (encodeSeq s) = s := by
  intro s
  induction s with
  | nil => intro _; rfl
  | cons a t ih =>
    intro hs
    have ha : a = 0 ∨ a = 1 := hs a (List.mem_cons_self a t)
    have h2 := ih (fun d hd => hs d (List.mem_cons_of_mem a hd))
    show decodeCell (encodeItem a) :: decodeSeq (encodeSeq t) = a :: t
    rw [h2]
    rcases ha with rfl | rfl <;> rfl

/-- C5: one-hot encoding of a fixed binary sequence is deterministic (equal
sequences give equal encodings) and reversible: decoding by taking, at each
position, the channel index holding the 1 recovers exactly the original
digits. -/
theorem encode_deterministic_reversible (s : List Int)
    (hs : ∀ d ∈ s, d = 0 ∨ d = 1) :
    (∀ s2 : List Int, s2 = s → encodeSeq s2 = encodeSeq s) ∧
    decodeSeq (encodeSeq s) = s :=
  ⟨fun s2 h => by rw [h], decode_encode s hs⟩

/-- Witness for C5 on the concrete binary sequence `[0, 1, 1, 0]`. -/
theorem encode_deterministic_reversible_witness :
    (∀ s2 : List Int, s2 = [0, 1, 1, 0] → encodeSeq s2 = encodeSeq [0, 1, 1, 0]) ∧
    decodeSeq (encodeSeq [0, 1, 1, 0]) = [0, 1, 1, 0] :=
  encode_deterministic_reversible [0, 1, 1, 0] (by decide)

/-- C8: after training, the displayed result is a comma-separated list of
exactly three values, one per fixed example sequence of `getInput`, each the
rounding of the model's prediction to 0 or 1.  The predictions themselves come
from the external framework's `model.predict`; they are abstracted as one
rational per input row, lying in [0, 1] because the output layer is a sigmoid. -/
theorem resultsDisplay_three_rounded (preds : List ℚ)
    (hlen : preds.length = getInput.length)
    (hrange : ∀ p ∈ preds, 0 ≤ p ∧ p ≤ 1) :
    getInput.length = 3 ∧
    ∃ r1 r2 r3 : Int,
      (r1 = 0 ∨ r1 = 1) ∧ (r2 = 0 ∨ r2 = 1) ∧ (r3 = 0 ∨ r3 = 1) ∧
      roundPredictions preds = [r1, r2, r3] ∧
      resultsDisplay preds =
        toString r1 ++ "," ++ toString r2 ++ "," ++ toString r3 := by
  have hg : getInput.length = 3 := rfl
  refine ⟨hg, ?_⟩
  rw [hg] at hlen
  obtain ⟨a, b, c, rfl⟩ := List.length_eq_three.mp hlen
  obtain ⟨ha0, ha1⟩ := hrange a (by simp)
  obtain ⟨hb0, hb1⟩ := hrange b (by simp)
  obtain ⟨hc0, hc1⟩ := hrange c (by simp)
  refine ⟨jsRound a, jsRound b, jsRound c, jsRound_binary a ha0 ha1,
    jsRound_binary b hb0 hb1, jsRound_binary c hc0 hc1, rfl, ?_⟩
  rw [show resultsDisplay [a, b, c] =
        toString (jsRound a) ++ "," ++
          (toString (jsRound b) ++ "," ++ toString (jsRound c))
      from rfl]
  simp only [string_append_assoc]

/-- Witness for C8 with the concrete predictions 0, 1 and 1. -/
theorem resultsDisplay_three_rounded_witness :
    getInput.length = 3 ∧
    ∃ r1 r2 r3 : Int,
      (r1 = 0 ∨ r1 = 1) ∧ (r2 = 0 ∨ r2 = 1) ∧ (r3 = 0 ∨ r3 = 1) ∧
      roundPredictions [0, 1, 1] = [r1, r2, r3] ∧
      resultsDisplay [0, 1, 1] =
        toString r1 ++ "," ++ toString r2 ++ "," ++ toString r3 :=
  resultsDisplay_three_rounded [0, 1, 1] rfl (by decide)

/-- C9: at an epoch boundary (where `model.stopTraining` is still false),
training is stopped if and only if the cancellation flag is set or the epoch's
validation accuracy exceeds 0.9 — in particular high validation accuracy stops
training even when cancellation was never requested. -/
theorem onEpochEnd_stop_iff (cancelFlag : Bool) (valAcc : ℚ) :
    onEpochEnd false cancelFlag valAcc = true ↔
      (cancelFlag = true ∨ (0.9 : ℚ) < valAcc) := by
  rw [onEpochEnd]
  by_cases h : (cancelFlag = true ∨ (0.9 : ℚ) < valAcc)
  · rw [if_pos h]
    exact ⟨fun _ => h, fun _ => rfl⟩
  · rw [if_neg h]
    exact ⟨fun hh => absurd hh (by decide), fun hh => absurd hh h⟩

/-- C10: in every inputs tensor built by `generateDataset` or `getInput`,
every position holds a proper one-hot pair: exactly one of the two channels is
1 and the other is 0, and the channel holding the 1 is the digit itself, which
is in bounds (< 2). -/
theorem oneHot_exactly_one (M N : Int) (rand : Nat → Nat → Bool) :
    (∀ item : Int, item = 0 ∨ item = 1 →
        ∃ c : Nat, c < 2 ∧ (c : Int) = item ∧
          (encodeItem item).get? c = some 1 ∧
          (encodeItem item).get? (1 - c) = some 0) ∧
    (∀ row ∈ (generateDataset M N rand).1, ∀ cell ∈ row,
        cell = [1, 0] ∨ cell = [0, 1]) ∧
    (∀ row ∈ getInput, ∀ cell ∈ row, cell = [1, 0] ∨ cell = [0, 1]) := by
  refine ⟨?_, ?_, by decide⟩
  · rintro item (rfl | rfl)
    · exact ⟨0, by decide, rfl, rfl, rfl⟩
    · exact ⟨1, by decide, rfl, rfl, rfl⟩
  · intro row hrow cell hcell
    simp only [generateDataset, List.mem_map] at hrow
    obtain ⟨i, _, rfl⟩ := hrow
    simp only [encodeSeq, List.mem_map] at hcell
    obtain ⟨d, hd, rfl⟩ := hcell
    exact encodeItem_oneHot d (generated_digits_binary N (rand i) d hd)

/-- Witness for C10: the digit 1 is written into channel 1, which is in
bounds, and the other channel holds 0. -/
theorem oneHot_exactly_one_witness :
    ∃ c : Nat, c < 2 ∧ (c : Int) = 1 ∧
      (encodeItem 1).get? c = some 1 ∧ (encodeItem 1).get? (1 - c) = some 0 :=
  (oneHot_exactly_one 0 0 (fun _ _ => false)).1 1 (Or.inr rfl)
